import Mathlib

/-!
Verification of the HBS knowledge-sheet scraper (`hbsknowledgesheet.py`)
against its natural-language specification.

The Python source is shallowly embedded below:
* dynamic JSON hits become the `Hit` structure with `Option` fields for
  optional / possibly-absent values;
* Python truthiness of optional strings is modelled explicitly
  (`none` and `some ""` are falsy);
* the Google-Sheets store is a list of previously appended rows;
* the paginated HTTP API is a function from a page offset to either a
  request failure or a list of hits (`Except Unit (List Hit)`);
* `datetime.now()` is an external clock passed as a function from the
  running count of mapped rows to a timestamp string;
* `try/except` becomes `Option`/`Except` handling, so every embedded
  function is total.
-/

namespace HbsSheet

/-- A raw topic value: either a string or a non-string JSON value
(the code only ever asks `isinstance(t, str)`). -/
inductive TopicVal where
  | str (s : String)
  | other
deriving DecidableEq, Repr

/-- One entry of the nested `display.byline` list: a dict whose
`label` key may be absent (`item.get("label", "")`). -/
structure BylineItem where
  label : Option String := none
deriving DecidableEq, Repr

/-- The nested `display` object of a hit.  `byline := none` models both an
absent `byline` key and a non-list value (the code maps both to an empty
author list); `thumbnailSrc` models `display.thumbnail.src`, `none` when
any level is absent. -/
structure Display where
  date : Option String := none
  byline : Option (List BylineItem) := none
  thumbnailSrc : Option String := none
deriving DecidableEq, Repr

/-- One raw article record (`hit`) returned by the search API.
`none` models an absent key (or JSON null) throughout; `author := none`
also covers a non-list value, and `faculty := none` covers absent or
non-list (the code produces the same output for those). -/
structure Hit where
  id : Option String := none
  url : Option String := none
  sortDate : Option String := none
  display : Display := {}
  author : Option (List String) := none
  faculty : Option (List String) := none
  topic : Option (List TopicVal) := none
  title : Option String := none
  description : Option String := none
deriving DecidableEq, Repr

/-- One output row, the 11 columns appended to the sheet.  `objectId` is
`Option String` because the code appends `hit.get("id")` unchanged, which
may be `None`. -/
structure Row where
  title : String
  pubDate : String
  author : String
  faculty : String
  summary : String
  articleUrl : String
  imageUrl : String
  category : String
  newCategory : String
  objectId : Option String
  timestamp : String
deriving DecidableEq, Repr

/-- `all_valid_categories` from the source. -/
def all_valid_categories : List String :=
  ["Accounting", "Advertising", "AI at Work", "Artificial Intelligence",
   "Strategy", "Leadership", "Not Defined"]

/-- `page_size = 10` in `fetch_and_upload`. -/
def page_size : Nat := 10

/-- `max_articles = 50` in `fetch_and_upload`. -/
def max_articles : Nat := 50

/-- The offsets visited by `for offset in range(0, max_articles, page_size)`. -/
def pageOffsets : List Nat := (List.range (max_articles / page_size)).map (· * page_size)

/-- Python `a or b` on two optional strings: `a` when it is truthy
(present and non-empty), otherwise `b`. -/
def pyOr (a b : Option String) : Option String :=
  match a with
  | none => b
  | some s => if s = "" then b else some s

/-- Python truthiness of an optional string (`if date_str`, `if hit.get("id")`). -/
def truthy (o : Option String) : Bool :=
  match o with
  | none => false
  | some s => s ≠ ""

/-- `normalize_categories(topics)` from the source.  The argument is the
raw `topic` value; `none` models both an absent/null value and, together
with `some []`, everything falsy under `if not topics`. -/
def normalize_categories (topics : Option (List TopicVal)) : List String × List String :=
  match topics with
  | none => (["Not Defined"], [])
  | some ts =>
    if ts.isEmpty then (["Not Defined"], [])
    else
      let cleaned := ts.filterMap (fun t => match t with | .str s => some s | .other => none)
      let allowed := cleaned.filter (fun t => all_valid_categories.contains t)
      let newCats := cleaned.filter (fun t => ¬ all_valid_categories.contains t)
      (if allowed.isEmpty then ["Not Defined"] else allowed, newCats)

/-! ### Model of `datetime.fromisoformat(...).date()`

The code calls `datetime.fromisoformat(date_str.replace("Z", ""))` inside a
`try/except`.  We model the stdlib parser as a total function returning
`Option (year, month, day)`: the accepted grammar is the documented
`YYYY-MM-DD[*HH[:MM[:SS[.fff[fff]]]][+HH:MM]]` of `fromisoformat` (any single
character as date/time separator), with calendar validation of year ≥ 1,
month and day, hour ≤ 23, minute/second ≤ 59, fractions of exactly 3 or 6
digits, and a UTC offset bounded below one day. -/

/-- Numeric value of a list of decimal digit characters. -/
def digitsToNat (cs : List Char) : Nat :=
  cs.foldl (fun a c => a * 10 + (c.toNat - 48)) 0

/-- Gregorian leap-year test. -/
def isLeap (y : Nat) : Bool :=
  y % 4 = 0 && (y % 100 ≠ 0 || y % 400 = 0)

/-- Number of days in a month of the proleptic Gregorian calendar. -/
def daysInMonth (y m : Nat) : Nat :=
  if m = 2 then (if isLeap y then 29 else 28)
  else if m = 4 ∨ m = 6 ∨ m = 9 ∨ m = 11 then 30
  else 31

/-- Parse exactly two decimal digits from the front of a character list. -/
def parseTwoDigits : List Char → Option (Nat × List Char)
  | a :: b :: r => if a.isDigit && b.isDigit then some (digitsToNat [a, b], r) else none
  | _ => none

/-- Validate an optional trailing UTC offset `±HH:MM` (empty input is valid:
no offset present). -/
def parseOffsetTail : List Char → Bool
  | [] => true
  | c :: r =>
    (c = '+' || c = '-') &&
    match parseTwoDigits r with
    | some (oh, ':' :: r2) =>
      (match parseTwoDigits r2 with
       | some (om, []) => oh ≤ 23 && om ≤ 59
       | _ => false)
    | _ => false

/-- Validate the time portion `HH[:MM[:SS[.fff[fff]]]]` followed by an
optional offset. -/
def parseTimePart (cs : List Char) : Bool :=
  match parseTwoDigits cs with
  | none => false
  | some (h, r) =>
    h ≤ 23 &&
    match r with
    | ':' :: r1 =>
      (match parseTwoDigits r1 with
       | none => false
       | some (m, r2) =>
         m ≤ 59 &&
         match r2 with
         | ':' :: r3 =>
           (match parseTwoDigits r3 with
            | none => false
            | some (s, r4) =>
              s ≤ 59 &&
              match r4 with
              | '.' :: r5 =>
                let fr := r5.takeWhile Char.isDigit
                let rest := r5.dropWhile Char.isDigit
                (fr.length = 3 || fr.length = 6) && parseOffsetTail rest
              | _ => parseOffsetTail r4)
         | _ => parseOffsetTail r2)
    | _ => parseOffsetTail r

/-- Model of `datetime.fromisoformat(s).date()`: date of the parsed
datetime on success, `none` where the Python call raises `ValueError`. -/
def parseIsoDate (s : String) : Option (Nat × Nat × Nat) :=
  match s.data with
  | y1 :: y2 :: y3 :: y4 :: '-' :: m1 :: m2 :: '-' :: d1 :: d2 :: rest =>
    if [y1, y2, y3, y4, m1, m2, d1, d2].all Char.isDigit then
      let y := digitsToNat [y1, y2, y3, y4]
      let m := digitsToNat [m1, m2]
      let d := digitsToNat [d1, d2]
      if 1 ≤ y && 1 ≤ m && m ≤ 12 && 1 ≤ d && d ≤ daysInMonth y m then
        match rest with
        | [] => some (y, m, d)
        | _sep :: timeChars => if parseTimePart timeChars then some (y, m, d) else none
      else none
    else none
  | _ => none

/-- Zero-pad a natural number to two digits. -/
def pad2 (n : Nat) : String :=
  if n < 10 then "0" ++ toString n else toString n

/-- Zero-pad a natural number to four digits. -/
def pad4 (n : Nat) : String :=
  if n < 10 then "000" ++ toString n
  else if n < 100 then "00" ++ toString n
  else if n < 1000 then "0" ++ toString n
  else toString n

/-- `date.isoformat()`: the `YYYY-MM-DD` rendering of a parsed date. -/
def isoDateString : Nat × Nat × Nat → String
  | (y, m, d) => pad4 y ++ "-" ++ pad2 m ++ "-" ++ pad2 d

/-- Model of Python `s.replace("Z", "")`: removes every occurrence of the
single-character pattern `"Z"`. -/
def removeZ (s : String) : String :=
  String.mk (s.data.filter (fun c => c ≠ 'Z'))

/-- The date field computed by `build_article_row` (lines 66–70):
`date_str = hit.get("sortDate") or hit.get("display", {}).get("date")`, then
`datetime.fromisoformat(date_str.replace("Z", "")).date().isoformat() if
date_str else ""` inside `try/except` — a parse failure yields `""`. -/
def pubDateOf (hit : Hit) : String :=
  match pyOr hit.sortDate hit.display.date with
  | none => ""
  | some s =>
    if s = "" then ""
    else
      match parseIsoDate (removeZ s) with
      | some ymd => isoDateString ymd
      | none => ""

/-- The author list selected by lines 72–75: the hit's `author` list when
truthy (non-empty), otherwise the labels of the `display.byline` entries
(empty when `byline` is absent or not a list). -/
def authorsOf (hit : Hit) : List String :=
  match hit.author with
  | some (a :: rest) => a :: rest
  | _ =>
    match hit.display.byline with
    | some items => items.map (fun i => i.label.getD "")
    | none => []

/-- `build_article_row(hit)` from the source, with the `datetime.now()`
timestamp supplied externally as `ts`. -/
def build_article_row (ts : String) (hit : Hit) : Row :=
  let thumb := hit.display.thumbnailSrc.getD ""
  let cats := normalize_categories hit.topic
  { title := hit.title.getD ""
    pubDate := pubDateOf hit
    author := String.intercalate ", " (authorsOf hit)
    faculty := String.intercalate ", " (hit.faculty.getD [])
    summary := hit.description.getD ""
    articleUrl := hit.url.getD ""
    imageUrl := if thumb.startsWith "//" then "https:" ++ thumb else thumb
    category := String.intercalate ", " cats.1
    newCategory := if cats.2.isEmpty then "" else String.intercalate ", " cats.2
    objectId := hit.id
    timestamp := ts }

/-! ### Existing-Key Index and the orchestrator

`init_sheet` (credential loading + connection) is external I/O; the run is
parameterised by its outcome: `Except Unit Store`, where the `Store` is the
list of rows currently in the sheet (what `get_all_records` returns).  The
HTTP API is `api : Nat → Except Unit (List Hit)`: for a page offset either
a `requests` failure or the decoded `hits` list.  `datetime.now()` is the
`clock` function, sampled at the current `articles_checked` count. -/

/-- The sheet contents visible to `get_all_records`. -/
abbrev Store := List Row

/-- `get_existing_object_ids(sheet)` (lines 49–53): the Object-ID column of
all records, skipping falsy (absent or empty) values.  The Python set is
modelled as the list of collected ids with membership up to duplicates. -/
def get_existing_object_ids (store : Store) : List String :=
  store.filterMap (fun r =>
    match r.objectId with
    | some s => if s = "" then none else some s
    | none => none)

/-- Python `hit.get("id") not in existing_ids`, negated: membership of an
optional id in the index set (`None` is never a member; the index never
contains `""`). -/
def idInIndex (ids : List String) : Option String → Bool
  | none => false
  | some s => ids.contains s

/-- The body of the inner `for hit in hits` loop (lines 128–131): skip a
hit whose id is in the index, otherwise append its row and increment
`articles_checked`.  The state is `(articles_checked, batch_to_append)`. -/
def procHit (ids : List String) (clock : Nat → String) :
    Nat × List Row → Hit → Nat × List Row
  | (c, b), hit =>
    if idInIndex ids hit.id then (c, b)
    else (c + 1, b ++ [build_article_row (clock c) hit])

/-- The inner `for hit in hits` loop over a whole page. -/
def processHits (ids : List String) (clock : Nat → String)
    (st : Nat × List Row) (hits : List Hit) : Nat × List Row :=
  hits.foldl (procHit ids clock) st

/-- The `for offset in range(0, max_articles, page_size)` loop
(lines 116–139).  The state is `(articles_checked, batch_to_append,
offsets fetched so far)`; the loop `break`s on a request failure, on an
empty `hits` list, and when `articles_checked >= max_articles`. -/
def pageLoop (api : Nat → Except Unit (List Hit)) (ids : List String)
    (clock : Nat → String) :
    List Nat → Nat × List Row × List Nat → Nat × List Row × List Nat
  | [], st => st
  | o :: rest, (c, b, fetched) =>
    match api o with
    | .error _ => (c, b, fetched ++ [o])
    | .ok hits =>
      if hits.isEmpty then (c, b, fetched ++ [o])
      else
        let st := processHits ids clock (c, b) hits
        if max_articles ≤ st.1 then (st.1, st.2, fetched ++ [o])
        else pageLoop api ids clock rest (st.1, st.2, fetched ++ [o])

/-- Observable outcome of one `fetch_and_upload()` run. -/
structure RunResult where
  /-- the store connection was established (`init_sheet` returned). -/
  connected : Bool
  /-- the Existing-Key Index was built from the store. -/
  indexBuilt : Bool
  /-- offsets for which an HTTP request was issued, in order. -/
  fetchedOffsets : List Nat
  /-- final value of `articles_checked`. -/
  checked : Nat
  /-- final value of `batch_to_append`. -/
  batch : List Row
  /-- `sheet.append_rows` was called (only for a non-empty batch). -/
  appendCalled : Bool
  /-- the rows passed to the single `append_rows` call (empty if no call). -/
  appendedRows : List Row
deriving DecidableEq, Repr

/-- `fetch_and_upload()` (lines 101–150).  `initResult` is the outcome of
`init_sheet()`: on any exception there (missing or invalid credential
JSON, connection failure) the function logs and returns at once; otherwise
it carries the connected sheet's current contents. -/
def fetch_and_upload (initResult : Except Unit Store)
    (api : Nat → Except Unit (List Hit)) (clock : Nat → String) : RunResult :=
  match initResult with
  | .error _ =>
    { connected := false, indexBuilt := false, fetchedOffsets := []
      checked := 0, batch := [], appendCalled := false, appendedRows := [] }
  | .ok store =>
    let ids := get_existing_object_ids store
    let res := pageLoop api ids clock pageOffsets (0, [], [])
    { connected := true, indexBuilt := true, fetchedOffsets := res.2.2
      checked := res.1, batch := res.2.1
      appendCalled := !res.2.1.isEmpty
      appendedRows := if res.2.1.isEmpty then [] else res.2.1 }

/-! ### Spec-side definitions and concrete inputs used by the claims -/

/-- The strings among a raw topic list (non-string entries discarded),
order preserved — the `cleaned` list of `normalize_categories`. -/
def topicStrings (ts : List TopicVal) : List String :=
  ts.filterMap (fun t => match t with | .str s => some s | .other => none)

/-- Strip one trailing `Z` from a string, if present. -/
def stripTrailingZ (s : String) : String :=
  match s.data.getLast? with
  | some 'Z' => String.mk s.data.dropLast
  | _ => s

/-- The Publication Date mapping as claim C5 states it: the selected date
string (primary field, else the nested fallback), when truthy, parsed as
ISO-8601 after stripping a single trailing `Z`; the date-only ISO string on
success and `""` on absence or parse failure. -/
def claimPubDateTrailingZ (hit : Hit) : String :=
  match pyOr hit.sortDate hit.display.date with
  | none => ""
  | some s =>
    if s = "" then ""
    else
      match parseIsoDate (stripTrailingZ s) with
      | some ymd => isoDateString ymd
      | none => ""

/-- The Publication Date mapping with the amended wording: every
occurrence of `Z` is removed before parsing. -/
def claimPubDateAllZ (hit : Hit) : String :=
  match pyOr hit.sortDate hit.display.date with
  | none => ""
  | some s =>
    if s = "" then ""
    else
      match parseIsoDate (removeZ s) with
      | some ymd => isoDateString ymd
      | none => ""

/-- The Image URL mapping as claim C8 states it. -/
def claimImageUrl (hit : Hit) : String :=
  match hit.display.thumbnailSrc with
  | none => ""
  | some src => if src.startsWith "//" then "https:" ++ src else src

/-- Well-behaved API responses for the idempotence claim: every page that
a run can request answers either with a failure or with at most
`page_size` hits, all carrying truthy identifiers. -/
def apiPagesOk (api : Nat → Except Unit (List Hit)) : Bool :=
  pageOffsets.all (fun o =>
    match api o with
    | .error _ => true
    | .ok hits => decide (hits.length ≤ page_size) && hits.all (fun h => truthy h.id))

/-- A constant clock for concrete runs. -/
def clk : Nat → String := fun _ => "t"

/-- A hit whose only populated field is the identifier `"x"`. -/
def hitX : Hit := { id := some "x" }

/-- An API whose first page returns the same new identifier twice. -/
def dupApi : Nat → Except Unit (List Hit) :=
  fun o => if o = 0 then .ok [hitX, hitX] else .ok []

/-- A hit with no identifier at all. -/
def hitNoId : Hit := { title := some "untitled" }

/-- An API whose first page returns a single identifier-less hit. -/
def falsyApi : Nat → Except Unit (List Hit) :=
  fun o => if o = 0 then .ok [hitNoId] else .ok []

/-- An API whose first page examines `max_articles` fresh hits at once, and
whose second page holds one further fresh hit. -/
def bigPageApi : Nat → Except Unit (List Hit) :=
  fun o =>
    if o = 0 then .ok ((List.range max_articles).map (fun i => { id := some (toString i) }))
    else if o = 10 then .ok [{ id := some "extra" }]
    else .ok []

/-- A truthy-id hit served by `okThenFailApi`. -/
def hitA : Hit := { id := some "a" }

/-- An API whose first page succeeds with one hit and whose second page
request fails. -/
def okThenFailApi : Nat → Except Unit (List Hit) :=
  fun o => if o = 0 then .ok [hitA] else if o = 10 then .error () else .ok []

/-- The date-string input separating "strip one trailing Z" from
"remove every Z". -/
def hitC5 : Hit := { sortDate := some "2023Z-05-01" }

/-- A hit carrying the spec's well-formed example date. -/
def hitGoodDate : Hit := { sortDate := some "2023-05-01T00:00:00Z" }

/-- A hit carrying the spec's malformed example date. -/
def hitBadDate : Hit := { sortDate := some "not-a-date" }

/-- A store that already holds the exact row the identifier-less hit maps to. -/
def storeWithNoIdRow : Store := [build_article_row "t" hitNoId]

/-! ## Helper lemmas -/

theorem pageOffsets_eq : pageOffsets = [0, 10, 20, 30, 40] := by decide

theorem processHits_nil (ids : List String) (clock : Nat → String) (st : Nat × List Row) :
    processHits ids clock st [] = st := rfl

theorem processHits_cons (ids : List String) (clock : Nat → String) (st : Nat × List Row)
    (h : Hit) (t : List Hit) :
    processHits ids clock st (h :: t) = processHits ids clock (procHit ids clock st h) t := rfl

theorem procHit_known (ids : List String) (clock : Nat → String) (c : Nat) (b : List Row)
    (hit : Hit) (h : idInIndex ids hit.id = true) :
    procHit ids clock (c, b) hit = (c, b) := by
  simp [procHit, h]

theorem procHit_new (ids : List String) (clock : Nat → String) (c : Nat) (b : List Row)
    (hit : Hit) (h : idInIndex ids hit.id = false) :
    procHit ids clock (c, b) hit = (c + 1, b ++ [build_article_row (clock c) hit]) := by
  simp [procHit, h]

theorem pageLoop_nil (api : Nat → Except Unit (List Hit)) (ids : List String)
    (clock : Nat → String) (st : Nat × List Row × List Nat) :
    pageLoop api ids clock [] st = st := rfl

theorem pageLoop_cons_error (api : Nat → Except Unit (List Hit)) (ids : List String)
    (clock : Nat → String) (o : Nat) (rest : List Nat) (c : Nat) (b : List Row) (f : List Nat)
    (h : api o = .error ()) :
    pageLoop api ids clock (o :: rest) (c, b, f) = (c, b, f ++ [o]) := by
  simp [pageLoop, h]

theorem pageLoop_cons_ok_empty (api : Nat → Except Unit (List Hit)) (ids : List String)
    (clock : Nat → String) (o : Nat) (rest : List Nat) (c : Nat) (b : List Row) (f : List Nat)
    (hits : List Hit) (h : api o = .ok hits) (he : hits.isEmpty = true) :
    pageLoop api ids clock (o :: rest) (c, b, f) = (c, b, f ++ [o]) := by
  simp [pageLoop, h, he]

theorem pageLoop_cons_ok_break (api : Nat → Except Unit (List Hit)) (ids : List String)
    (clock : Nat → String) (o : Nat) (rest : List Nat) (c : Nat) (b : List Row) (f : List Nat)
    (hits : List Hit) (h : api o = .ok hits) (he : hits.isEmpty = false)
    (hm : max_articles ≤ (processHits ids clock (c, b) hits).1) :
    pageLoop api ids clock (o :: rest) (c, b, f) =
      ((processHits ids clock (c, b) hits).1, (processHits ids clock (c, b) hits).2, f ++ [o]) := by
  simp [pageLoop, h, he, hm]

theorem pageLoop_cons_ok_cont (api : Nat → Except Unit (List Hit)) (ids : List String)
    (clock : Nat → String) (o : Nat) (rest : List Nat) (c : Nat) (b : List Row) (f : List Nat)
    (hits : List Hit) (h : api o = .ok hits) (he : hits.isEmpty = false)
    (hm : ¬ max_articles ≤ (processHits ids clock (c, b) hits).1) :
    pageLoop api ids clock (o :: rest) (c, b, f) =
      pageLoop api ids clock rest
        ((processHits ids clock (c, b) hits).1, (processHits ids clock (c, b) hits).2, f ++ [o]) := by
  simp [pageLoop, h, he, hm]

theorem processHits_all_known (ids : List String) (clock : Nat → String) (hits : List Hit)
    (h : ∀ x ∈ hits, idInIndex ids x.id = true) :
    ∀ st : Nat × List Row, processHits ids clock st hits = st := by
  induction hits with
  | nil => intro st; rfl
  | cons hd tl ih =>
    intro st
    obtain ⟨c, b⟩ := st
    rw [processHits_cons, procHit_known ids clock c b hd (h hd (by simp))]
    exact ih (fun x hx => h x (by simp [hx])) (c, b)

theorem processHits_batch_mono (ids : List String) (clock : Nat → String) (hits : List Hit) :
    ∀ (c : Nat) (b : List Row),
      ∃ ext, (processHits ids clock (c, b) hits).2 = b ++ ext := by
  induction hits with
  | nil => intro c b; exact ⟨[], by simp [processHits_nil]⟩
  | cons hd tl ih =>
    intro c b
    rw [processHits_cons]
    cases hk : idInIndex ids hd.id with
    | true =>
      rw [procHit_known ids clock c b hd hk]
      exact ih c b
    | false =>
      rw [procHit_new ids clock c b hd hk]
      obtain ⟨ext, hext⟩ := ih (c + 1) (b ++ [build_article_row (clock c) hd])
      exact ⟨build_article_row (clock c) hd :: ext, by simp [hext]⟩

theorem processHits_checked_batch (ids : List String) (clock : Nat → String) (hits : List Hit) :
    ∀ (c : Nat) (b : List Row),
      (processHits ids clock (c, b) hits).1 + b.length
        = c + (processHits ids clock (c, b) hits).2.length := by
  induction hits with
  | nil => intro c b; simp [processHits_nil, Nat.add_comm]
  | cons hd tl ih =>
    intro c b
    rw [processHits_cons]
    cases hk : idInIndex ids hd.id with
    | true => rw [procHit_known ids clock c b hd hk]; exact ih c b
    | false =>
      rw [procHit_new ids clock c b hd hk]
      have h := ih (c + 1) (b ++ [build_article_row (clock c) hd])
      simp only [List.length_append, List.length_cons, List.length_nil] at h ⊢
      omega

theorem processHits_checked_le (ids : List String) (clock : Nat → String) (hits : List Hit) :
    ∀ (c : Nat) (b : List Row),
      (processHits ids clock (c, b) hits).1 ≤ c + hits.length := by
  induction hits with
  | nil => intro c b; simp [processHits_nil]
  | cons hd tl ih =>
    intro c b
    rw [processHits_cons]
    cases hk : idInIndex ids hd.id with
    | true =>
      rw [procHit_known ids clock c b hd hk]
      have := ih c b
      simp only [List.length_cons]
      omega
    | false =>
      rw [procHit_new ids clock c b hd hk]
      have := ih (c + 1) (b ++ [build_article_row (clock c) hd])
      simp only [List.length_cons]
      omega

theorem processHits_mem_of_new (ids : List String) (clock : Nat → String) :
    ∀ (hits : List Hit) (h : Hit), h ∈ hits → idInIndex ids h.id = false →
      ∀ (c : Nat) (b : List Row),
        ∃ ts, build_article_row ts h ∈ (processHits ids clock (c, b) hits).2 := by
  intro hits
  induction hits with
  | nil => intro h hmem; cases hmem
  | cons hd tl ih =>
    intro h hmem hnew c b
    rw [processHits_cons]
    rcases List.mem_cons.mp hmem with rfl | htl
    · rw [procHit_new ids clock c b h hnew]
      obtain ⟨ext, hext⟩ :=
        processHits_batch_mono ids clock tl (c + 1) (b ++ [build_article_row (clock c) h])
      exact ⟨clock c, by rw [hext]; simp⟩
    · cases hst : procHit ids clock (c, b) hd with
      | mk c1 b1 => exact ih h htl hnew c1 b1

theorem processHits_batch_notIn (ids : List String) (clock : Nat → String) :
    ∀ (hits : List Hit) (c : Nat) (b : List Row),
      (∀ r ∈ b, idInIndex ids r.objectId = false) →
      ∀ r ∈ (processHits ids clock (c, b) hits).2, idInIndex ids r.objectId = false := by
  intro hits
  induction hits with
  | nil => intro c b hb; simpa [processHits_nil] using hb
  | cons hd tl ih =>
    intro c b hb
    rw [processHits_cons]
    cases hk : idInIndex ids hd.id with
    | true => rw [procHit_known ids clock c b hd hk]; exact ih c b hb
    | false =>
      rw [procHit_new ids clock c b hd hk]
      refine ih (c + 1) (b ++ [build_article_row (clock c) hd]) ?_
      intro r hr
      rcases List.mem_append.mp hr with hr | hr
      · exact hb r hr
      · have : r = build_article_row (clock c) hd := by simpa using hr
        subst this
        exact hk

theorem mem_processHits_from (ids : List String) (clock : Nat → String) :
    ∀ (hits : List Hit) (c : Nat) (b : List Row) (r : Row),
      r ∈ (processHits ids clock (c, b) hits).2 →
      r ∈ b ∨ ∃ h ∈ hits, ∃ ts, r = build_article_row ts h := by
  intro hits
  induction hits with
  | nil => intro c b r hr; exact Or.inl (by simpa [processHits_nil] using hr)
  | cons hd tl ih =>
    intro c b r hr
    rw [processHits_cons] at hr
    cases hk : idInIndex ids hd.id with
    | true =>
      rw [procHit_known ids clock c b hd hk] at hr
      rcases ih c b r hr with hb | ⟨h, hh, ts, hts⟩
      · exact Or.inl hb
      · exact Or.inr ⟨h, by simp [hh], ts, hts⟩
    | false =>
      rw [procHit_new ids clock c b hd hk] at hr
      rcases ih (c + 1) (b ++ [build_article_row (clock c) hd]) r hr with hb | ⟨h, hh, ts, hts⟩
      · rcases List.mem_append.mp hb with hb | hb
        · exact Or.inl hb
        · exact Or.inr ⟨hd, by simp, clock c, by simpa using hb⟩
      · exact Or.inr ⟨h, by simp [hh], ts, hts⟩

theorem pageLoop_batch_mono (api : Nat → Except Unit (List Hit)) (ids : List String)
    (clock : Nat → String) :
    ∀ (L : List Nat) (c : Nat) (b : List Row) (f : List Nat),
      ∃ ext, (pageLoop api ids clock L (c, b, f)).2.1 = b ++ ext := by
  intro L
  induction L with
  | nil => intro c b f; exact ⟨[], by simp [pageLoop_nil]⟩
  | cons o rest ih =>
    intro c b f
    cases hapi : api o with
    | error e =>
      rw [pageLoop_cons_error api ids clock o rest c b f (by simpa using hapi)]
      exact ⟨[], by simp⟩
    | ok hits =>
      cases he : hits.isEmpty with
      | true =>
        rw [pageLoop_cons_ok_empty api ids clock o rest c b f hits hapi he]
        exact ⟨[], by simp⟩
      | false =>
        obtain ⟨e1, he1⟩ := processHits_batch_mono ids clock hits c b
        by_cases hm : max_articles ≤ (processHits ids clock (c, b) hits).1
        · rw [pageLoop_cons_ok_break api ids clock o rest c b f hits hapi he hm]
          exact ⟨e1, he1⟩
        · rw [pageLoop_cons_ok_cont api ids clock o rest c b f hits hapi he hm]
          obtain ⟨e2, he2⟩ :=
            ih (processHits ids clock (c, b) hits).1 (processHits ids clock (c, b) hits).2
              (f ++ [o])
          exact ⟨e1 ++ e2, by rw [he2, he1, List.append_assoc]⟩

theorem pageLoop_checked_batch (api : Nat → Except Unit (List Hit)) (ids : List String)
    (clock : Nat → String) :
    ∀ (L : List Nat) (c : Nat) (b : List Row) (f : List Nat),
      (pageLoop api ids clock L (c, b, f)).1 + b.length
        = c + (pageLoop api ids clock L (c, b, f)).2.1.length := by
  intro L
  induction L with
  | nil => intro c b f; simp [pageLoop_nil, Nat.add_comm]
  | cons o rest ih =>
    intro c b f
    cases hapi : api o with
    | error e =>
      rw [pageLoop_cons_error api ids clock o rest c b f (by simpa using hapi)]
    | ok hits =>
      cases he : hits.isEmpty with
      | true =>
        rw [pageLoop_cons_ok_empty api ids clock o rest c b f hits hapi he]
      | false =>
        have hpc := processHits_checked_batch ids clock hits c b
        by_cases hm : max_articles ≤ (processHits ids clock (c, b) hits).1
        · rw [pageLoop_cons_ok_break api ids clock o rest c b f hits hapi he hm]
          exact hpc
        · rw [pageLoop_cons_ok_cont api ids clock o rest c b f hits hapi he hm]
          have hih :=
            ih (processHits ids clock (c, b) hits).1 (processHits ids clock (c, b) hits).2
              (f ++ [o])
          omega

theorem pageLoop_batch_notIn (api : Nat → Except Unit (List Hit)) (ids : List String)
    (clock : Nat → String) :
    ∀ (L : List Nat) (c : Nat) (b : List Row) (f : List Nat),
      (∀ r ∈ b, idInIndex ids r.objectId = false) →
      ∀ r ∈ (pageLoop api ids clock L (c, b, f)).2.1, idInIndex ids r.objectId = false := by
  intro L
  induction L with
  | nil => intro c b f hb; simpa [pageLoop_nil] using hb
  | cons o rest ih =>
    intro c b f hb
    cases hapi : api o with
    | error e =>
      rw [pageLoop_cons_error api ids clock o rest c b f (by simpa using hapi)]
      exact hb
    | ok hits =>
      cases he : hits.isEmpty with
      | true =>
        rw [pageLoop_cons_ok_empty api ids clock o rest c b f hits hapi he]
        exact hb
      | false =>
        have hstep := processHits_batch_notIn ids clock hits c b hb
        by_cases hm : max_articles ≤ (processHits ids clock (c, b) hits).1
        · rw [pageLoop_cons_ok_break api ids clock o rest c b f hits hapi he hm]
          exact hstep
        · rw [pageLoop_cons_ok_cont api ids clock o rest c b f hits hapi he hm]
          exact ih (processHits ids clock (c, b) hits).1 (processHits ids clock (c, b) hits).2
            (f ++ [o]) hstep

theorem mem_pageLoop_from (api : Nat → Except Unit (List Hit)) (ids : List String)
    (clock : Nat → String) :
    ∀ (L : List Nat) (c : Nat) (b : List Row) (f : List Nat) (r : Row),
      r ∈ (pageLoop api ids clock L (c, b, f)).2.1 →
      r ∈ b ∨ ∃ o ∈ L, ∃ hits, api o = .ok hits ∧ ∃ h ∈ hits, ∃ ts, r = build_article_row ts h := by
  intro L
  induction L with
  | nil => intro c b f r hr; exact Or.inl (by simpa [pageLoop_nil] using hr)
  | cons o rest ih =>
    intro c b f r hr
    cases hapi : api o with
    | error e =>
      rw [pageLoop_cons_error api ids clock o rest c b f (by simpa using hapi)] at hr
      exact Or.inl hr
    | ok hits =>
      have step : ∀ x ∈ (processHits ids clock (c, b) hits).2,
          x ∈ b ∨ ∃ o2 ∈ o :: rest, ∃ hs, api o2 = .ok hs ∧
            ∃ h ∈ hs, ∃ ts, x = build_article_row ts h := by
        intro x hx
        rcases mem_processHits_from ids clock hits c b x hx with hxb | ⟨h, hh, ts, hts⟩
        · exact Or.inl hxb
        · exact Or.inr ⟨o, by simp, hits, hapi, h, hh, ts, hts⟩
      cases he : hits.isEmpty with
      | true =>
        rw [pageLoop_cons_ok_empty api ids clock o rest c b f hits hapi he] at hr
        exact Or.inl hr
      | false =>
        by_cases hm : max_articles ≤ (processHits ids clock (c, b) hits).1
        · rw [pageLoop_cons_ok_break api ids clock o rest c b f hits hapi he hm] at hr
          exact step r hr
        · rw [pageLoop_cons_ok_cont api ids clock o rest c b f hits hapi he hm] at hr
          rcases ih (processHits ids clock (c, b) hits).1 (processHits ids clock (c, b) hits).2
              (f ++ [o]) r hr with hrb | ⟨o2, ho2, hs, hhs, h, hh, ts, hts⟩
          · exact step r hrb
          · exact Or.inr ⟨o2, by simp [ho2], hs, hhs, h, hh, ts, hts⟩

theorem pageLoop_f_irrel (api : Nat → Except Unit (List Hit)) (ids : List String)
    (clock : Nat → String) :
    ∀ (L : List Nat) (c : Nat) (b : List Row) (f g : List Nat),
      (pageLoop api ids clock L (c, b, f)).1 = (pageLoop api ids clock L (c, b, g)).1
      ∧ (pageLoop api ids clock L (c, b, f)).2.1 = (pageLoop api ids clock L (c, b, g)).2.1 := by
  intro L
  induction L with
  | nil => intro c b f g; simp [pageLoop_nil]
  | cons o rest ih =>
    intro c b f g
    cases hapi : api o with
    | error e =>
      rw [pageLoop_cons_error api ids clock o rest c b f (by simpa using hapi),
        pageLoop_cons_error api ids clock o rest c b g (by simpa using hapi)]
      simp
    | ok hits =>
      cases he : hits.isEmpty with
      | true =>
        rw [pageLoop_cons_ok_empty api ids clock o rest c b f hits hapi he,
          pageLoop_cons_ok_empty api ids clock o rest c b g hits hapi he]
        simp
      | false =>
        by_cases hm : max_articles ≤ (processHits ids clock (c, b) hits).1
        · rw [pageLoop_cons_ok_break api ids clock o rest c b f hits hapi he hm,
            pageLoop_cons_ok_break api ids clock o rest c b g hits hapi he hm]
          simp
        · rw [pageLoop_cons_ok_cont api ids clock o rest c b f hits hapi he hm,
            pageLoop_cons_ok_cont api ids clock o rest c b g hits hapi he hm]
          exact ih (processHits ids clock (c, b) hits).1 (processHits ids clock (c, b) hits).2
            (f ++ [o]) (g ++ [o])

theorem empty_string_not_mem_index (store : Store) :
    "" ∉ get_existing_object_ids store := by
  intro h
  obtain ⟨r, _, hf⟩ := List.mem_filterMap.mp h
  revert hf
  cases r.objectId with
  | none => simp
  | some s =>
    by_cases hs : s = "" <;> simp [hs]

theorem mem_index_iff (store : Store) (s : String) :
    s ∈ get_existing_object_ids store ↔ ∃ r ∈ store, r.objectId = some s ∧ s ≠ "" := by
  constructor
  · intro h
    obtain ⟨r, hr, hf⟩ := List.mem_filterMap.mp h
    cases hid : r.objectId with
    | none => simp [hid] at hf
    | some t =>
      simp only [hid] at hf
      by_cases ht : t = ""
      · simp [ht] at hf
      · simp only [if_neg ht, Option.some.injEq] at hf
        subst hf
        exact ⟨r, hr, hid, ht⟩
  · rintro ⟨r, hr, hid, hs⟩
    exact List.mem_filterMap.mpr ⟨r, hr, by simp [hid, hs]⟩

theorem objectId_build (ts : String) (hit : Hit) :
    (build_article_row ts hit).objectId = hit.id := rfl

theorem appendCalled_eq (initResult : Except Unit Store) (api : Nat → Except Unit (List Hit))
    (clock : Nat → String) :
    (fetch_and_upload initResult api clock).appendCalled
      = !(fetch_and_upload initResult api clock).batch.isEmpty := by
  cases initResult <;> rfl

theorem appendedRows_eq_batch (store : Store) (api : Nat → Except Unit (List Hit))
    (clock : Nat → String) :
    (fetch_and_upload (.ok store) api clock).appendedRows
      = (fetch_and_upload (.ok store) api clock).batch := by
  show (if (pageLoop api (get_existing_object_ids store) clock pageOffsets (0, [], [])).2.1.isEmpty
      then ([] : List Row)
      else (pageLoop api (get_existing_object_ids store) clock pageOffsets (0, [], [])).2.1)
    = (pageLoop api (get_existing_object_ids store) clock pageOffsets (0, [], [])).2.1
  cases hb : (pageLoop api (get_existing_object_ids store) clock pageOffsets (0, [], [])).2.1.isEmpty
  · simp
  · simp [List.isEmpty_iff.mp hb]

/-! ## Claims -/

/-- **C2.** For every ArticleHit whose identifier is a member of the
Existing-Key Index built at run start, the orchestrator produces no
OutputRow for it, does not add it to the batch, and does not increment the
checked count: the per-hit step (source lines 128–131) leaves the
`(articles_checked, batch_to_append)` state unchanged, and a whole page of
already-known hits leaves it unchanged as well. -/
theorem C2_known_id_skipped (ids : List String) (clock : Nat → String) (c : Nat) (b : List Row) :
    (∀ hit : Hit, idInIndex ids hit.id = true → procHit ids clock (c, b) hit = (c, b))
    ∧ (∀ hits : List Hit, (∀ h ∈ hits, idInIndex ids h.id = true) →
        processHits ids clock (c, b) hits = (c, b)) :=
  ⟨fun hit h => procHit_known ids clock c b hit h,
   fun hits h => processHits_all_known ids clock hits h (c, b)⟩

/-- Witness for C2 at a concrete known identifier. -/
theorem C2_witness :
    procHit ["x"] clk (0, []) hitX = (0, [])
    ∧ processHits ["x"] clk (0, []) [hitX, hitX] = (0, []) :=
  ⟨(C2_known_id_skipped ["x"] clk 0 []).1 hitX (by decide),
   (C2_known_id_skipped ["x"] clk 0 []).2 [hitX, hitX] (by decide)⟩

/-- **C4.** The Category Normalizer: empty or absent input yields
`(["Not Defined"], [])`; otherwise non-string entries are discarded and the
remaining strings are partitioned, order preserved, into allow-list members
versus the rest; an empty allowed part becomes `["Not Defined"]`, so the
allowed part is never empty. -/
theorem C4_normalize_categories (topics : Option (List TopicVal)) :
    ((topics = none ∨ topics = some []) → normalize_categories topics = (["Not Defined"], []))
    ∧ (∀ ts, topics = some ts →
        (normalize_categories topics).2
            = (topicStrings ts).filter (fun s => ¬ all_valid_categories.contains s)
          ∧ ((topicStrings ts).filter (fun s => all_valid_categories.contains s) ≠ [] →
              (normalize_categories topics).1
                = (topicStrings ts).filter (fun s => all_valid_categories.contains s))
          ∧ ((topicStrings ts).filter (fun s => all_valid_categories.contains s) = [] →
              (normalize_categories topics).1 = ["Not Defined"]))
    ∧ (normalize_categories topics).1 ≠ [] := by
  refine ⟨?_, ?_, ?_⟩
  · rintro (rfl | rfl) <;> rfl
  · rintro ts rfl
    cases hts : ts.isEmpty with
    | true =>
      have hnil : ts = [] := List.isEmpty_iff.mp hts
      subst hnil
      exact ⟨rfl, fun h => absurd rfl h, fun _ => rfl⟩
    | false =>
      refine ⟨?_, ?_, ?_⟩
      · simp only [normalize_categories, hts, Bool.false_eq_true, if_false, topicStrings]
      · intro h
        have ha : ((topicStrings ts).filter
            (fun s => all_valid_categories.contains s)).isEmpty = false := by
          cases hh : ((topicStrings ts).filter
              (fun s => all_valid_categories.contains s)).isEmpty
          · rfl
          · exact absurd (List.isEmpty_iff.mp hh) h
        simp only [normalize_categories, hts, Bool.false_eq_true, if_false, topicStrings] at ha ⊢
        simp only [ha, Bool.false_eq_true, if_false]
      · intro h
        have ha : ((topicStrings ts).filter
            (fun s => all_valid_categories.contains s)).isEmpty = true := by
          rw [h]; rfl
        simp only [normalize_categories, hts, Bool.false_eq_true, if_false, topicStrings] at ha ⊢
        simp only [ha, if_true]
  · cases topics with
    | none => simp [normalize_categories]
    | some ts =>
      cases hts : ts.isEmpty with
      | true => simp [normalize_categories, hts]
      | false =>
        simp only [normalize_categories, hts, Bool.false_eq_true, if_false]
        cases ha : (List.filter (fun t => all_valid_categories.contains t)
            (ts.filterMap (fun t => match t with | .str s => some s | .other => none))).isEmpty
        · simp only [ha, Bool.false_eq_true, if_false]
          exact fun hcon => by rw [hcon] at ha; cases ha
        · simp [ha]
  -- end C4

/-- Witness for C4 at concrete topic lists. -/
theorem C4_witness :
    (normalize_categories (some [TopicVal.str "Strategy", TopicVal.str "Foo", TopicVal.other])).2
        = ["Foo"]
    ∧ (normalize_categories (some [TopicVal.str "Strategy", TopicVal.str "Foo",
        TopicVal.other])).1 = ["Strategy"]
    ∧ normalize_categories (some ([] : List TopicVal)) = (["Not Defined"], []) := by
  have h := C4_normalize_categories
    (some [TopicVal.str "Strategy", TopicVal.str "Foo", TopicVal.other])
  have h0 := C4_normalize_categories (some ([] : List TopicVal))
  refine ⟨?_, ?_, h0.1 (Or.inr rfl)⟩
  · rw [(h.2.1 _ rfl).1]; decide
  · rw [(h.2.1 _ rfl).2.1 (by decide)]; decide

/-- **C7.** When establishing the store connection fails (`init_sheet`
raises: missing or invalid credential JSON, or any connection error), the
run aborts immediately with no partial work: the Existing-Key Index is not
built, no API page is fetched, and no append is attempted. -/
theorem C7_connection_failure_aborts (api : Nat → Except Unit (List Hit))
    (clock : Nat → String) :
    fetch_and_upload (.error ()) api clock =
      { connected := false, indexBuilt := false, fetchedOffsets := []
        checked := 0, batch := [], appendCalled := false, appendedRows := [] } := rfl

/-- **C8.** The Image URL field is `"https:"` prepended to the nested
thumbnail source when that source starts with `"//"`, the source unchanged
otherwise, and the empty string when the thumbnail source is absent. -/
theorem C8_image_url (hit : Hit) (ts : String) :
    (build_article_row ts hit).imageUrl = claimImageUrl hit := by
  cases h : hit.display.thumbnailSrc with
  | none =>
    simp [build_article_row, claimImageUrl, h]
    decide
  | some src => simp [build_article_row, claimImageUrl, h]

/-- **C5, counterexample.** The claim describes the date normalisation as
parsing "after stripping a trailing `Z`", but the code removes every
occurrence of `Z` (`date_str.replace("Z", "")`).  At the concrete date
string `"2023Z-05-01"` the two disagree: the code produces
`"2023-05-01"` while the claimed mapping produces `""`. -/
theorem C5_counterexample :
    (build_article_row "t" hitC5).pubDate = "2023-05-01"
    ∧ claimPubDateTrailingZ hitC5 = ""
    ∧ (build_article_row "t" hitC5).pubDate ≠ claimPubDateTrailingZ hitC5 :=
  ⟨by decide, by decide, by decide⟩

/-- **C5, amended.** Computing the Publication Date never raises (the
embedded mapping is total); if a date string is present and parses as
ISO-8601 after removing every occurrence of `Z`, the field is the
date-only ISO string, and on absence or any parse failure it is the empty
string.  The spec's two examples are included: `"2023-05-01T00:00:00Z"`
yields `"2023-05-01"` and `"not-a-date"` yields `""`. -/
theorem C5_amended_pubdate :
    (∀ (hit : Hit) (ts : String), (build_article_row ts hit).pubDate = claimPubDateAllZ hit)
    ∧ (∀ ts : String, (build_article_row ts hitGoodDate).pubDate = "2023-05-01")
    ∧ (∀ ts : String, (build_article_row ts hitBadDate).pubDate = "") := by
  refine ⟨?_, ?_, ?_⟩
  · intro hit ts
    show pubDateOf hit = claimPubDateAllZ hit
    unfold pubDateOf claimPubDateAllZ
    rfl
  · intro ts
    show pubDateOf hitGoodDate = "2023-05-01"
    decide
  · intro ts
    show pubDateOf hitBadDate = ""
    decide

/-- **C1, counterexample.** The claim that the batch passed to the single
append call never contains two rows with the same Object ID fails: the
run-loop filters only against the Existing-Key Index built at run start,
never against identifiers already queued in the batch, so an API answer
repeating a fresh identifier (here `"x"` twice on page one, empty store)
puts two rows with the same Object ID into one batch. -/
theorem C1_counterexample :
    ¬ ((fetch_and_upload (.ok ([] : Store)) dupApi clk).batch.Pairwise
        (fun a b => a.objectId ≠ b.objectId)) := by
  decide

/-- **C1, amended.** No row in the batch carries an Object ID that is
already present in the store at run start: for every run over any store,
every row of the batch passed to the append call fails the Existing-Key
Index membership test.  (Within one batch, duplicate Object IDs remain
possible when the API repeats an identifier, and rows with falsy Object
IDs are never considered duplicates.) -/
theorem C1_amended_batch_ids_fresh (store : Store) (api : Nat → Except Unit (List Hit))
    (clock : Nat → String) :
    ∀ r ∈ (fetch_and_upload (.ok store) api clock).batch,
      idInIndex (get_existing_object_ids store) r.objectId = false := by
  intro r hr
  have hb : (fetch_and_upload (.ok store) api clock).batch
      = (pageLoop api (get_existing_object_ids store) clock pageOffsets (0, [], [])).2.1 := rfl
  rw [hb] at hr
  exact pageLoop_batch_notIn api (get_existing_object_ids store) clock pageOffsets 0 [] []
    (fun x hx => absurd hx (List.not_mem_nil x)) r hr

/-- Witness for C1 (amended) at a concrete run. -/
theorem C1_witness :
    idInIndex (get_existing_object_ids ([] : Store)) (build_article_row "t" hitX).objectId
      = false :=
  C1_amended_batch_ids_fresh [] dupApi clk (build_article_row "t" hitX) (by decide)

/-- **C9.** The number of rows in the accumulated batch always equals the
`articles_checked` counter: both start at 0, the per-hit step preserves the
equality (it increments both together or neither), and the run's final
reported checked count equals the number of rows submitted for upload. -/
theorem C9_checked_eq_batch (initResult : Except Unit Store)
    (api : Nat → Except Unit (List Hit)) (clock : Nat → String) :
    ((fetch_and_upload initResult api clock).checked
        = (fetch_and_upload initResult api clock).batch.length)
    ∧ (∀ (ids : List String) (c : Nat) (b : List Row) (hit : Hit), c = b.length →
        (procHit ids clock (c, b) hit).1 = (procHit ids clock (c, b) hit).2.length) := by
  constructor
  · cases initResult with
    | error e => rfl
    | ok store =>
      have h := pageLoop_checked_batch api (get_existing_object_ids store) clock
        pageOffsets 0 [] []
      show (pageLoop api (get_existing_object_ids store) clock pageOffsets (0, [], [])).1
          = (pageLoop api (get_existing_object_ids store) clock pageOffsets (0, [], [])).2.1.length
      simpa using h
  · intro ids c b hit hc
    cases hk : idInIndex ids hit.id with
    | true =>
      rw [procHit_known ids clock c b hit hk]
      exact hc
    | false =>
      rw [procHit_new ids clock c b hit hk]
      simp [hc]

/-- Witness for C9 at a concrete run and step. -/
theorem C9_witness :
    ((fetch_and_upload (.ok ([] : Store)) dupApi clk).checked
        = (fetch_and_upload (.ok ([] : Store)) dupApi clk).batch.length)
    ∧ (procHit [] clk (0, []) hitX).1 = (procHit [] clk (0, []) hitX).2.length :=
  ⟨(C9_checked_eq_batch (.ok []) dupApi clk).1,
   (C9_checked_eq_batch (.ok []) dupApi clk).2 [] 0 [] hitX (by decide)⟩

/-- **C10.** Deduplication never applies to a hit whose identifier is
absent or falsy: the Existing-Key Index skips falsy Object IDs when
loading, the membership test then fails, and such a hit — here one sitting
on the first page — is mapped to a row carrying its falsy Object ID and
put into the batch on every run, for every store, including stores already
holding an identical row. -/
theorem C10_falsy_id_always_appended (store : Store) (api : Nat → Except Unit (List Hit))
    (clock : Nat → String) (hits : List Hit) (hit : Hit)
    (hfetch : api 0 = .ok hits) (hmem : hit ∈ hits) (hfalsy : truthy hit.id = false) :
    (∃ ts, build_article_row ts hit ∈ (fetch_and_upload (.ok store) api clock).batch)
    ∧ idInIndex (get_existing_object_ids store) hit.id = false
    ∧ ∀ ts, (build_article_row ts hit).objectId = hit.id := by
  have hidx : idInIndex (get_existing_object_ids store) hit.id = false := by
    cases hid : hit.id with
    | none => rfl
    | some s =>
      rw [hid] at hfalsy
      have hs : s = "" := by
        by_contra hne
        simp [truthy, hne] at hfalsy
      subst hs
      show (get_existing_object_ids store).contains "" = false
      cases hcon : (get_existing_object_ids store).contains "" with
      | false => rfl
      | true =>
        exact absurd (by simpa using hcon) (empty_string_not_mem_index store)
  refine ⟨?_, hidx, fun ts => rfl⟩
  show ∃ ts, build_article_row ts hit
      ∈ (pageLoop api (get_existing_object_ids store) clock pageOffsets (0, [], [])).2.1
  rw [pageOffsets_eq]
  have hne : hits.isEmpty = false := by
    cases hits with
    | nil => cases hmem
    | cons a t => rfl
  obtain ⟨ts, hts⟩ :=
    processHits_mem_of_new (get_existing_object_ids store) clock hits hit hmem hidx 0 []
  by_cases hm : max_articles
      ≤ (processHits (get_existing_object_ids store) clock (0, []) hits).1
  · rw [pageLoop_cons_ok_break api (get_existing_object_ids store) clock 0 [10, 20, 30, 40]
      0 [] [] hits hfetch hne hm]
    exact ⟨ts, hts⟩
  · rw [pageLoop_cons_ok_cont api (get_existing_object_ids store) clock 0 [10, 20, 30, 40]
      0 [] [] hits hfetch hne hm]
    obtain ⟨ext, hext⟩ := pageLoop_batch_mono api (get_existing_object_ids store) clock
      [10, 20, 30, 40]
      (processHits (get_existing_object_ids store) clock (0, []) hits).1
      (processHits (get_existing_object_ids store) clock (0, []) hits).2 ([] ++ [0])
    exact ⟨ts, by rw [hext]; exact List.mem_append.mpr (Or.inl hts)⟩

/-- Witness for C10: a store already holding the identical row the
identifier-less hit maps to still receives it again. -/
theorem C10_witness :
    (∃ ts, build_article_row ts hitNoId
        ∈ (fetch_and_upload (.ok storeWithNoIdRow) falsyApi clk).batch)
    ∧ idInIndex (get_existing_object_ids storeWithNoIdRow) hitNoId.id = false
    ∧ ∀ ts, (build_article_row ts hitNoId).objectId = hitNoId.id :=
  C10_falsy_id_always_appended storeWithNoIdRow falsyApi clk [hitNoId] hitNoId
    rfl (by decide) rfl

/-- **C6.** A page-fetch failure never aborts the run: the page loop stops
at the failing offset with the already-accumulated state preserved
(`(c, b, f ++ [o])`, the remaining offsets unvisited), and the run still
reaches the upload phase — the rows handed to the append call are exactly
the accumulated batch. -/
theorem C6_fetch_failure_keeps_partial (store : Store) (api : Nat → Except Unit (List Hit))
    (clock : Nat → String) (o : Nat) (rest : List Nat) (c : Nat) (b : List Row)
    (f : List Nat) (h : api o = .error ()) :
    pageLoop api (get_existing_object_ids store) clock (o :: rest) (c, b, f) = (c, b, f ++ [o])
    ∧ (fetch_and_upload (.ok store) api clock).connected = true
    ∧ (fetch_and_upload (.ok store) api clock).appendedRows
        = (fetch_and_upload (.ok store) api clock).batch :=
  ⟨pageLoop_cons_error api (get_existing_object_ids store) clock o rest c b f h,
   rfl, appendedRows_eq_batch store api clock⟩

/-- Witness for C6: the second page request fails after the first page
contributed a row; the loop stops there and the accumulated row survives
to the upload phase. -/
theorem C6_witness :
    pageLoop okThenFailApi (get_existing_object_ids ([] : Store)) clk [10, 20, 30, 40]
        (1, [build_article_row "t" hitA], [0])
      = (1, [build_article_row "t" hitA], [0, 10])
    ∧ (fetch_and_upload (.ok ([] : Store)) okThenFailApi clk).connected = true
    ∧ (fetch_and_upload (.ok ([] : Store)) okThenFailApi clk).appendedRows
        = (fetch_and_upload (.ok ([] : Store)) okThenFailApi clk).batch :=
  C6_fetch_failure_keeps_partial [] okThenFailApi clk 10 [20, 30, 40] 1
    [build_article_row "t" hitA] [0] rfl

/-- Simulation lemma behind the amended idempotence claim: when every page
answers with at most `page_size` hits, all with truthy identifiers, and
`ids2` contains `ids1` together with every truthy Object ID of the batch
the first run's loop produces from the current state, then the loop run
against `ids2` from a fresh state collects nothing. -/
theorem secondRun_no_new (api : Nat → Except Unit (List Hit)) (ids1 ids2 : List String)
    (clock1 clock2 : Nat → String) :
    ∀ (L : List Nat) (c1 : Nat) (b1 : List Row) (f1 f2 : List Nat),
      (∀ o ∈ L, ∀ hits, api o = .ok hits →
        hits.length ≤ page_size ∧ ∀ h ∈ hits, truthy h.id = true) →
      c1 + page_size * L.length ≤ max_articles →
      (∀ s : String,
        (s ∈ ids1 ∨ ∃ r ∈ (pageLoop api ids1 clock1 L (c1, b1, f1)).2.1, r.objectId = some s)
        → s ∈ ids2) →
      (pageLoop api ids2 clock2 L (0, [], f2)).1 = 0
      ∧ (pageLoop api ids2 clock2 L (0, [], f2)).2.1 = [] := by
  intro L
  induction L with
  | nil =>
    intro c1 b1 f1 f2 hL hcap hids
    exact ⟨rfl, rfl⟩
  | cons o rest ih =>
    intro c1 b1 f1 f2 hL hcap hids
    cases hapi : api o with
    | error e =>
      rw [pageLoop_cons_error api ids2 clock2 o rest 0 [] f2 (by simpa using hapi)]
      exact ⟨rfl, rfl⟩
    | ok hits =>
      cases he : hits.isEmpty with
      | true =>
        rw [pageLoop_cons_ok_empty api ids2 clock2 o rest 0 [] f2 hits hapi he]
        exact ⟨rfl, rfl⟩
      | false =>
        obtain ⟨hlen, htru⟩ := hL o (by simp) hits hapi
        have hall : ∀ h ∈ hits, idInIndex ids2 h.id = true := by
          intro h hh
          have ht := htru h hh
          cases hid : h.id with
          | none => rw [hid] at ht; cases ht
          | some s =>
            rw [hid] at ht
            have hs2 : s ∈ ids2 := by
              by_cases h1 : idInIndex ids1 (some s) = true
              · refine hids s (Or.inl ?_)
                have : ids1.contains s = true := h1
                simpa using this
              · have h1f : idInIndex ids1 h.id = false := by
                  rw [hid]
                  cases hcon : idInIndex ids1 (some s) with
                  | false => rfl
                  | true => exact absurd hcon h1
                obtain ⟨ts, hts⟩ :=
                  processHits_mem_of_new ids1 clock1 hits h hh h1f c1 b1
                have hrow : build_article_row ts h
                    ∈ (pageLoop api ids1 clock1 (o :: rest) (c1, b1, f1)).2.1 := by
                  by_cases hm : max_articles ≤ (processHits ids1 clock1 (c1, b1) hits).1
                  · rw [pageLoop_cons_ok_break api ids1 clock1 o rest c1 b1 f1 hits hapi he hm]
                    exact hts
                  · rw [pageLoop_cons_ok_cont api ids1 clock1 o rest c1 b1 f1 hits hapi he hm]
                    obtain ⟨ext, hext⟩ := pageLoop_batch_mono api ids1 clock1 rest
                      (processHits ids1 clock1 (c1, b1) hits).1
                      (processHits ids1 clock1 (c1, b1) hits).2 (f1 ++ [o])
                    rw [hext]
                    exact List.mem_append.mpr (Or.inl hts)
                exact hids s
                  (Or.inr ⟨build_article_row ts h, hrow, by rw [objectId_build, hid]⟩)
            show ids2.contains s = true
            simpa using hs2
        have hskip := processHits_all_known ids2 clock2 hits hall (0, [])
        have hm2 : ¬ max_articles ≤ (processHits ids2 clock2 (0, []) hits).1 := by
          rw [hskip]
          decide
        rw [pageLoop_cons_ok_cont api ids2 clock2 o rest 0 [] f2 hits hapi he hm2, hskip]
        show (pageLoop api ids2 clock2 rest (0, [], f2 ++ [o])).1 = 0
          ∧ (pageLoop api ids2 clock2 rest (0, [], f2 ++ [o])).2.1 = []
        have h10 : page_size = 10 := rfl
        have h50 : max_articles = 50 := rfl
        have hle := processHits_checked_le ids1 clock1 hits c1 b1
        by_cases hm1 : max_articles ≤ (processHits ids1 clock1 (c1, b1) hits).1
        · have hrest : rest = [] := by
            cases rest with
            | nil => rfl
            | cons x xs =>
              exfalso
              have hgt : (50 : Nat) ≤ c1 + hits.length :=
                le_trans (h50 ▸ hm1) hle
              rw [h10] at hlen
              rw [h10, h50] at hcap
              simp only [List.length_cons] at hcap
              omega
          subst hrest
          exact ⟨rfl, rfl⟩
        · refine ih (processHits ids1 clock1 (c1, b1) hits).1
            (processHits ids1 clock1 (c1, b1) hits).2 (f1 ++ [o]) (f2 ++ [o])
            (fun o2 ho2 => hL o2 (by simp [ho2])) ?_ ?_
          · rw [h10, h50] at hcap ⊢
            rw [h10] at hlen
            simp only [List.length_cons] at hcap
            omega
          · intro s hs
            apply hids s
            rcases hs with hs | ⟨r, hr, hro⟩
            · exact Or.inl hs
            · refine Or.inr ⟨r, ?_, hro⟩
              rw [pageLoop_cons_ok_cont api ids1 clock1 o rest c1 b1 f1 hits hapi he hm1]
              exact hr

/-- **C3, counterexample.** A second run over an unchanged API and a store
holding everything the first run appended can still append rows, in two
ways.  With `falsyApi` the only hit has no identifier: the rebuilt index
skips its falsy Object ID, so the second run appends the row again.  With
`bigPageApi` the first page alone reaches the `max_articles` cut-off, the
first run stops there, and the second run — checking 0 new hits on that
page — proceeds to the second page and appends a fresh row the first run
never saw. -/
theorem C3_counterexample :
    (fetch_and_upload (.ok (([] : Store)
        ++ (fetch_and_upload (.ok ([] : Store)) falsyApi clk).batch)) falsyApi clk).batch ≠ []
    ∧ (fetch_and_upload (.ok (([] : Store)
        ++ (fetch_and_upload (.ok ([] : Store)) bigPageApi clk).batch)) bigPageApi clk).batch
      ≠ [] :=
  ⟨by decide, by decide⟩

/-- **C3, amended.** Running the pipeline a second time against the same
API and a store extended with everything the first run appended appends
zero rows, provided every page answer holds at most `page_size` hits and
every served hit carries a truthy identifier (so the first run cannot stop
at the max-articles cut-off before the final page, and no falsy identifier
evades the rebuilt Existing-Key Index). -/
theorem C3_amended_second_run_empty (store : Store) (api : Nat → Except Unit (List Hit))
    (clock1 clock2 : Nat → String) (hapi : apiPagesOk api = true) :
    (fetch_and_upload (.ok (store ++ (fetch_and_upload (.ok store) api clock1).batch))
        api clock2).batch = []
    ∧ (fetch_and_upload (.ok (store ++ (fetch_and_upload (.ok store) api clock1).batch))
        api clock2).appendCalled = false := by
  have hpages : ∀ o ∈ pageOffsets, ∀ hits, api o = .ok hits →
      hits.length ≤ page_size ∧ ∀ h ∈ hits, truthy h.id = true := by
    intro o ho hits hh
    have hall := List.all_eq_true.mp hapi o ho
    rw [hh] at hall
    simp only [Bool.and_eq_true, decide_eq_true_eq, List.all_eq_true] at hall
    exact ⟨hall.1, fun h hm => hall.2 h hm⟩
  have hbatch1 : (fetch_and_upload (.ok store) api clock1).batch
      = (pageLoop api (get_existing_object_ids store) clock1 pageOffsets (0, [], [])).2.1 := rfl
  have hids : ∀ s : String,
      (s ∈ get_existing_object_ids store
        ∨ ∃ r ∈ (pageLoop api (get_existing_object_ids store) clock1 pageOffsets
            (0, [], [])).2.1, r.objectId = some s)
      → s ∈ get_existing_object_ids
          (store ++ (fetch_and_upload (.ok store) api clock1).batch) := by
    intro s hs
    rcases hs with hs | ⟨r, hr, hro⟩
    · obtain ⟨r, hr, hrid, hsne⟩ := (mem_index_iff store s).mp hs
      exact (mem_index_iff _ s).mpr ⟨r, List.mem_append.mpr (Or.inl hr), hrid, hsne⟩
    · have hsne : s ≠ "" := by
        rcases mem_pageLoop_from api (get_existing_object_ids store) clock1 pageOffsets
            0 [] [] r hr with hnil | ⟨o, ho, hits, hh, h, hhm, ts, hts⟩
        · exact absurd hnil (List.not_mem_nil r)
        · have htru := (hpages o ho hits hh).2 h hhm
          have : r.objectId = h.id := by rw [hts, objectId_build]
          rw [this] at hro
          rw [hro] at htru
          intro hcon
          rw [hcon] at htru
          simp [truthy] at htru
      refine (mem_index_iff _ s).mpr ⟨r, ?_, hro, hsne⟩
      rw [hbatch1]
      exact List.mem_append.mpr (Or.inr hr)
  have hmain := secondRun_no_new api (get_existing_object_ids store)
    (get_existing_object_ids (store ++ (fetch_and_upload (.ok store) api clock1).batch))
    clock1 clock2 pageOffsets 0 [] [] [] hpages (by decide) hids
  have hb2 : (fetch_and_upload (.ok (store ++ (fetch_and_upload (.ok store) api clock1).batch))
      api clock2).batch = [] := hmain.2
  refine ⟨hb2, ?_⟩
  rw [appendCalled_eq, hb2]
  rfl

/-- Witness for C3 (amended) at a concrete well-behaved API. -/
theorem C3_witness :
    apiPagesOk okThenFailApi = true
    ∧ (fetch_and_upload (.ok (([] : Store)
        ++ (fetch_and_upload (.ok ([] : Store)) okThenFailApi clk).batch))
        okThenFailApi clk).batch = [] :=
  ⟨by decide, (C3_amended_second_run_empty [] okThenFailApi clk clk (by decide)).1⟩

end HbsSheet
